import Mathlib

/-!
Verification of the stylesheet set core (components/style/stylesheet_set.rs).

The Rust code is shallowly embedded: each struct becomes a Lean structure,
each method a Lean function on that structure.  The sheet type S is kept
generic, requiring only decidable equality (the Rust code requires
PartialEq).  Fallible operations (those that can panic via unwrap or
expect) return Option, with none standing for the panic.  The memory
accounting hooks and the invalidation accumulator are out of scope per the
spec; operations that only touch them are omitted, and the per-origin
container (defined outside this file in the repository) is modelled as a
record with one field per origin.
-/

/-- The three cascade origins (tiers).  UserAgent is the lowest-priority
platform default tier. -/
inductive Origin : Type where
  | UserAgent : Origin
  | User : Origin
  | Author : Origin
deriving DecidableEq, Repr

/-- The validity of the data in a given cascade origin, mirroring enum
DataValidity with discriminants Valid = 0, CascadeInvalid = 1,
FullyInvalid = 2. -/
inductive DataValidity : Type where
  | Valid : DataValidity
  | CascadeInvalid : DataValidity
  | FullyInvalid : DataValidity
deriving DecidableEq, Repr

/-- The discriminant of a DataValidity value, giving the order
Valid < CascadeInvalid < FullyInvalid used by the derived Ord in Rust. -/
def DataValidity.toNat : DataValidity → Nat
  | DataValidity.Valid => 0
  | DataValidity.CascadeInvalid => 1
  | DataValidity.FullyInvalid => 2

/-- Rust cmp max on DataValidity: returns the second argument when the
first is less than or equal to it, the first otherwise. -/
def DataValidity.max (a b : DataValidity) : DataValidity :=
  if a.toNat ≤ b.toNat then b else a

/-- The type of rebuild needed for a given stylesheet, mirroring enum
SheetRebuildKind. -/
inductive SheetRebuildKind : Type where
  | Full : SheetRebuildKind
  | CascadeOnly : SheetRebuildKind
deriving DecidableEq, Repr

/-- Entry for a StylesheetSet: a sheet plus whether it has been part of at
least one flush. -/
structure StylesheetSetEntry (S : Type) where
  sheet : S
  committed : Bool
deriving DecidableEq, Repr

/-- StylesheetSetEntry new: committed starts out false. -/
def StylesheetSetEntry.new {S : Type} (sheet : S) : StylesheetSetEntry S :=
  { sheet := sheet, committed := false }

/-- Setting the committed flag of an entry, as done by the mem replace in
PerOriginFlusher next. -/
def StylesheetSetEntry.markCommitted {S : Type} (e : StylesheetSetEntry S) :
    StylesheetSetEntry S :=
  { e with committed := true }

/-- Iterator position on a list: index of the first element satisfying the
predicate, none when there is none. -/
def position {α : Type} (p : α → Bool) : List α → Option Nat
  | [] => none
  | a :: l => if p a then some 0 else (position p l).map (· + 1)

/-- Vec remove at an index: drops the element there, shifting the rest
left (callers only use valid indices). -/
def removeAt {α : Type} : Nat → List α → List α
  | _, [] => []
  | 0, _ :: l => l
  | n + 1, a :: l => a :: removeAt n l

/-- Vec insert at an index: the element ends up at that position, with
everything from there on shifted right (callers only use valid indices). -/
def insertAt {α : Type} : Nat → α → List α → List α
  | 0, a, l => a :: l
  | _ + 1, a, [] => [a]
  | n + 1, a, b :: l => b :: insertAt n a l

/-- SheetCollection: the ordered entries of one origin plus the validity
of the data already rebuilt for it and the dirty flag. -/
structure SheetCollection (S : Type) where
  entries : List (StylesheetSetEntry S)
  data_validity : DataValidity
  dirty : Bool
deriving DecidableEq, Repr

namespace SheetCollection

variable {S : Type} [DecidableEq S]

/-- Default SheetCollection: empty, Valid, not dirty. -/
def default (S : Type) : SheetCollection S :=
  { entries := [], data_validity := DataValidity.Valid, dirty := false }

/-- Number of stylesheets in the collection. -/
def len (c : SheetCollection S) : Nat :=
  c.entries.length

/-- The sheet at the given index, if present. -/
def get (c : SheetCollection S) (index : Nat) : Option S :=
  (c.entries.get? index).map (fun e => e.sheet)

/-- Whether a sheet equal to the given one is in the collection. -/
def contains (c : SheetCollection S) (sheet : S) : Bool :=
  c.entries.any (fun e => decide (e.sheet = sheet))

/-- set_data_validity_at_least: raise the validity monotonically via max
and mark the collection dirty. -/
def set_data_validity_at_least (c : SheetCollection S) (validity : DataValidity) :
    SheetCollection S :=
  { c with dirty := true, data_validity := DataValidity.max validity c.data_validity }

/-- remove: find the sheet by equality.  Under the gecko feature a missing
sheet is silently ignored; otherwise the unwrap of the index panics
(modelled as none).  Removing a committed sheet raises validity to
FullyInvalid; removing an uncommitted one only sets dirty. -/
def remove (c : SheetCollection S) (gecko : Bool) (sheet : S) :
    Option (SheetCollection S) :=
  let index := position (fun entry => decide (entry.sheet = sheet)) c.entries
  if gecko && index.isNone then
    some c
  else
    match index with
    | none => none
    | some i =>
      match c.entries.get? i with
      | none => none
      | some entry =>
        let removed := { c with entries := removeAt i c.entries }
        if entry.committed then
          some (removed.set_data_validity_at_least DataValidity.FullyInvalid)
        else
          some { removed with dirty := true }

/-- append: push the new entry at the end and mark dirty; the validity of
the existing data is untouched. -/
def append (c : SheetCollection S) (sheet : S) : SheetCollection S :=
  { c with entries := c.entries ++ [StylesheetSetEntry.new sheet], dirty := true }

/-- insert_before: find the anchor (its absence is an expect panic,
modelled as none), raise validity to at least CascadeInvalid, and insert
the new entry at the anchor index. -/
def insert_before (c : SheetCollection S) (sheet : S) (before_sheet : S) :
    Option (SheetCollection S) :=
  match position (fun entry => decide (entry.sheet = before_sheet)) c.entries with
  | none => none
  | some index =>
    let c2 := c.set_data_validity_at_least DataValidity.CascadeInvalid
    some { c2 with entries := insertAt index (StylesheetSetEntry.new sheet) c2.entries }

/-- prepend: raise validity to at least CascadeInvalid and insert the new
entry at index 0. -/
def prepend (c : SheetCollection S) (sheet : S) : SheetCollection S :=
  let c2 := c.set_data_validity_at_least DataValidity.CascadeInvalid
  { c2 with entries := StylesheetSetEntry.new sheet :: c2.entries }

/-- The invariant relating the dirty flag and the validity: a clean
collection has Valid data. -/
def inv (c : SheetCollection S) : Prop :=
  c.dirty = false → c.data_validity = DataValidity.Valid

instance (c : SheetCollection S) : Decidable c.inv := by
  unfold inv; infer_instance

/-- The per-collection body of the flush loop in DocumentStylesheetSet
flush: replace dirty with false; when it was clean, skip (the data
validity snapshot stays at its default Valid); when it was dirty, record
it, snapshot the validity and reset it to Valid.  Returns (was recorded as
dirty, validity snapshot, collection afterwards). -/
def flushOne (c : SheetCollection S) :
    Bool × DataValidity × SheetCollection S :=
  let was_dirty := c.dirty
  let c2 := { c with dirty := false }
  if !was_dirty then
    (false, DataValidity.Valid, c2)
  else
    (true, c2.data_validity, { c2 with data_validity := DataValidity.Valid })

end SheetCollection

namespace PerOriginFlusher

variable {S : Type}

/-- PerOriginFlusher next: advance over the remaining entries, flipping
committed to true on each visited entry.  An uncommitted entry yields
(sheet, Full); a committed one is skipped under a Valid snapshot, and
yields (sheet, CascadeOnly) or (sheet, Full) under CascadeInvalid or
FullyInvalid.  Returns the yielded item (none at exhaustion), the entries
consumed by this call with their flips applied, and the entries still in
the iterator. -/
def next (validity : DataValidity) :
    List (StylesheetSetEntry S) →
      Option (S × SheetRebuildKind) ×
        List (StylesheetSetEntry S) × List (StylesheetSetEntry S)
  | [] => (none, [], [])
  | e :: rest =>
    if !e.committed then
      (some (e.sheet, SheetRebuildKind.Full), [e.markCommitted], rest)
    else
      match validity with
      | DataValidity.Valid =>
        let (r, consumed, remaining) := next validity rest
        (r, e.markCommitted :: consumed, remaining)
      | DataValidity.CascadeInvalid =>
        (some (e.sheet, SheetRebuildKind.CascadeOnly), [e.markCommitted], rest)
      | DataValidity.FullyInvalid =>
        (some (e.sheet, SheetRebuildKind.Full), [e.markCommitted], rest)

/-- Draining the cursor to exhaustion: the sequence of yielded items and
the final state of the entries. -/
def drain (validity : DataValidity) :
    List (StylesheetSetEntry S) →
      List (S × SheetRebuildKind) × List (StylesheetSetEntry S)
  | [] => ([], [])
  | e :: rest =>
    let p := drain validity rest
    if !e.committed then
      ((e.sheet, SheetRebuildKind.Full) :: p.1, e.markCommitted :: p.2)
    else
      match validity with
      | DataValidity.Valid => (p.1, e.markCommitted :: p.2)
      | DataValidity.CascadeInvalid =>
        ((e.sheet, SheetRebuildKind.CascadeOnly) :: p.1, e.markCommitted :: p.2)
      | DataValidity.FullyInvalid =>
        ((e.sheet, SheetRebuildKind.Full) :: p.1, e.markCommitted :: p.2)

end PerOriginFlusher

/-- A set of origins, as one flag per origin (the OriginSet bitset). -/
structure OriginSet : Type where
  user_agent : Bool
  user : Bool
  author : Bool
deriving DecidableEq, Repr

/-- OriginSet membership test. -/
def OriginSet.mem (s : OriginSet) : Origin → Bool
  | Origin.UserAgent => s.user_agent
  | Origin.User => s.user
  | Origin.Author => s.author

/-- The per-origin container: one value for each of the three origins. -/
structure PerOrigin (T : Type) where
  user_agent : T
  user : T
  author : T
deriving DecidableEq, Repr

/-- borrow_for_origin: the value stored for a given origin. -/
def PerOrigin.borrow_for_origin {T : Type} (p : PerOrigin T) : Origin → T
  | Origin.UserAgent => p.user_agent
  | Origin.User => p.user
  | Origin.Author => p.author

/-- Replacing the value stored for a given origin. -/
def PerOrigin.set_for_origin {T : Type} (p : PerOrigin T) : Origin → T → PerOrigin T
  | Origin.UserAgent, t => { p with user_agent := t }
  | Origin.User, t => { p with user := t }
  | Origin.Author, t => { p with author := t }

/-- The set of stylesheets effective for a document: one SheetCollection
per origin.  The invalidation accumulator is an external collaborator
(spec section 6) and carries no state relevant to the claims, so it is
not modelled. -/
structure DocumentStylesheetSet (S : Type) where
  collections : PerOrigin (SheetCollection S)
deriving DecidableEq, Repr

/-- The result of DocumentStylesheetSet flush: the snapshot of which
origins were dirty, the snapshot of their pre-reset validity, and the
collections after the reset (held exclusively by the flusher). -/
structure StylesheetFlusher (S : Type) where
  origins_dirty : OriginSet
  origin_data_validity : PerOrigin DataValidity
  collections : PerOrigin (SheetCollection S)
deriving DecidableEq, Repr

namespace DocumentStylesheetSet

variable {S : Type} [DecidableEq S]

/-- Total number of stylesheets over all origins. -/
def len (set : DocumentStylesheetSet S) : Nat :=
  set.collections.user_agent.len + set.collections.user.len +
    set.collections.author.len

/-- The index-th stylesheet of the given origin. -/
def get (set : DocumentStylesheetSet S) (origin : Origin) (index : Nat) :
    Option S :=
  (set.collections.borrow_for_origin origin).get index

/-- Whether any collection is dirty, i.e. the set changed since the last
flush. -/
def has_changed (set : DocumentStylesheetSet S) : Bool :=
  set.collections.user_agent.dirty || set.collections.user.dirty ||
    set.collections.author.dirty

/-- flush: for every origin run the flush loop body (SheetCollection
flushOne), collecting the dirty-origin set and the pre-reset validity
snapshots into the flusher.  The invalidation accumulator flush only
produces the had_invalidations boolean, which no claim concerns. -/
def flush (set : DocumentStylesheetSet S) : StylesheetFlusher S :=
  let fua := set.collections.user_agent.flushOne
  let fu := set.collections.user.flushOne
  let fa := set.collections.author.flushOne
  { origins_dirty := { user_agent := fua.1, user := fu.1, author := fa.1 },
    origin_data_validity :=
      { user_agent := fua.2.1, user := fu.2.1, author := fa.2.1 },
    collections := { user_agent := fua.2.2, user := fu.2.2, author := fa.2.2 } }

/-- Raising one collection to FullyInvalid when its origin is named in the
force_dirty origin set. -/
def forceOne (flag : Bool) (c : SheetCollection S) : SheetCollection S :=
  if flag then c.set_data_validity_at_least DataValidity.FullyInvalid else c

/-- force_dirty: raise every named origin to FullyInvalid (the
invalidate_fully call on the accumulator is external). -/
def force_dirty (set : DocumentStylesheetSet S) (origins : OriginSet) :
    DocumentStylesheetSet S :=
  { collections :=
      { user_agent := forceOne origins.user_agent set.collections.user_agent,
        user := forceOne origins.user set.collections.user,
        author := forceOne origins.author set.collections.author } }

/-- remove_stylesheet: locate the collection for the sheet by its origin
(read externally from the sheet contents) and remove the sheet from it.
The collect_invalidations_for step touches only the external accumulator. -/
def remove_stylesheet (set : DocumentStylesheetSet S) (gecko : Bool)
    (origin : Origin) (sheet : S) : Option (DocumentStylesheetSet S) :=
  ((set.collections.borrow_for_origin origin).remove gecko sheet).map
    (fun c => { collections := set.collections.set_for_origin origin c })

/-- append_stylesheet: locate the collection for the sheet by its origin
and append to it. -/
def append_stylesheet (set : DocumentStylesheetSet S) (origin : Origin)
    (sheet : S) : DocumentStylesheetSet S :=
  { collections := set.collections.set_for_origin origin
      ((set.collections.borrow_for_origin origin).append sheet) }

end DocumentStylesheetSet

/-- Modelled from the spec: the per-entry yield rule of the flush cursor,
in the words of the spec.  An entry whose committed flag had been false
yields (sheet, Full) regardless of the validity snapshot; a committed
entry is not yielded under Valid, yields (sheet, CascadeOnly) under
CascadeInvalid, and (sheet, Full) under FullyInvalid. -/
def specFlushYield {S : Type} (validity : DataValidity)
    (e : StylesheetSetEntry S) : Option (S × SheetRebuildKind) :=
  if e.committed = false then
    some (e.sheet, SheetRebuildKind.Full)
  else
    match validity with
    | DataValidity.Valid => none
    | DataValidity.CascadeInvalid => some (e.sheet, SheetRebuildKind.CascadeOnly)
    | DataValidity.FullyInvalid => some (e.sheet, SheetRebuildKind.Full)

/-! Helper lemmas. -/

/-- Draining is the exhaustive iteration of PerOriginFlusher next: drain
agrees with one step of next followed by draining the remaining entries. -/
theorem drain_unfolds_next {S : Type} (v : DataValidity)
    (l : List (StylesheetSetEntry S)) :
    PerOriginFlusher.drain v l =
      (match PerOriginFlusher.next v l with
        | (none, consumed, remaining) => ([], consumed ++ remaining)
        | (some y, consumed, remaining) =>
          (y :: (PerOriginFlusher.drain v remaining).1,
            consumed ++ (PerOriginFlusher.drain v remaining).2)) := by
  induction l with
  | nil => simp [PerOriginFlusher.drain, PerOriginFlusher.next]
  | cons e rest ih =>
    cases hc : e.committed
    · simp [PerOriginFlusher.drain, PerOriginFlusher.next, hc]
    · cases v
      case Valid =>
        rcases hnr : PerOriginFlusher.next DataValidity.Valid rest with
          ⟨r, consumed, remaining⟩
        rw [hnr] at ih
        cases r <;>
          simp [PerOriginFlusher.drain, PerOriginFlusher.next, hc, hnr, ih]
      case CascadeInvalid =>
        simp [PerOriginFlusher.drain, PerOriginFlusher.next, hc]
      case FullyInvalid =>
        simp [PerOriginFlusher.drain, PerOriginFlusher.next, hc]

/-- The drained cursor yields exactly the per-entry rule applied in
document order, and flips committed on every entry. -/
theorem drain_eq_filterMap {S : Type} (v : DataValidity)
    (l : List (StylesheetSetEntry S)) :
    PerOriginFlusher.drain v l =
      (l.filterMap (specFlushYield v), l.map StylesheetSetEntry.markCommitted) := by
  induction l with
  | nil => simp [PerOriginFlusher.drain]
  | cons e rest ih =>
    cases hc : e.committed <;> cases v <;>
      simp [PerOriginFlusher.drain, specFlushYield, hc, ih]

/-- Iterator position decomposition: when some element satisfies the
predicate, the list splits at the first such element and position returns
its index. -/
theorem position_of_any {α : Type} (p : α → Bool) :
    ∀ l : List α, l.any p = true →
      ∃ l1 x l2, l = l1 ++ x :: l2 ∧ p x = true ∧ (∀ y ∈ l1, p y = false) ∧
        position p l = some l1.length := by
  intro l
  induction l with
  | nil => intro h; simp at h
  | cons a l ih =>
    intro h
    cases ha : p a
    · have hl : l.any p = true := by
        rw [List.any_cons, ha] at h
        simpa using h
      obtain ⟨l1, x, l2, hdec, hx, hl1, hpos⟩ := ih hl
      refine ⟨a :: l1, x, l2, by simp [hdec], hx, ?_, ?_⟩
      · intro y hy
        rcases List.mem_cons.mp hy with rfl | hy
        · exact ha
        · exact hl1 y hy
      · simp [position, ha, hpos]
    · exact ⟨[], a, l, by simp, ha, by simp, by simp [position, ha]⟩

/-- When no element satisfies the predicate, position finds nothing. -/
theorem position_eq_none {α : Type} (p : α → Bool) :
    ∀ l : List α, l.any p = false → position p l = none := by
  intro l
  induction l with
  | nil => intro _; rfl
  | cons a l ih =>
    intro h
    rw [List.any_cons] at h
    have ha : p a = false := by
      cases hpa : p a
      · rfl
      · rw [hpa] at h; simp at h
    have hl : l.any p = false := by
      cases hal : l.any p
      · rfl
      · rw [hal] at h; simp at h
    simp [position, ha, ih hl]

/-- Indexing at the split point of a decomposed list. -/
theorem get?_append_cons {α : Type} :
    ∀ (l1 : List α) (x : α) (l2 : List α),
      (l1 ++ x :: l2).get? l1.length = some x := by
  intro l1
  induction l1 with
  | nil => intro x l2; rfl
  | cons a l1 ih => intro x l2; simpa using ih x l2

/-- Vec remove at the split point of a decomposed list. -/
theorem removeAt_append_cons {α : Type} :
    ∀ (l1 : List α) (x : α) (l2 : List α),
      removeAt l1.length (l1 ++ x :: l2) = l1 ++ l2 := by
  intro l1
  induction l1 with
  | nil => intro x l2; rfl
  | cons a l1 ih => intro x l2; simp [removeAt, ih x l2]

/-- Vec insert at the split point of a decomposed list. -/
theorem insertAt_append_cons {α : Type} :
    ∀ (l1 : List α) (a x : α) (l2 : List α),
      insertAt l1.length a (l1 ++ x :: l2) = l1 ++ a :: x :: l2 := by
  intro l1
  induction l1 with
  | nil => intro a x l2; rfl
  | cons b l1 ih => intro a x l2; simp [insertAt, ih a x l2]

/-- Behaviour of the per-collection flush body on clean and dirty
collections, and facts that hold either way. -/
theorem flushOne_spec {S : Type} (c : SheetCollection S) :
    (c.dirty = false →
      c.flushOne = (false, DataValidity.Valid, { c with dirty := false })) ∧
    (c.dirty = true →
      c.flushOne = (true, c.data_validity,
        { c with dirty := false, data_validity := DataValidity.Valid })) ∧
    ((c.flushOne).2.2.dirty = false) ∧
    ((c.flushOne).2.2.entries = c.entries) := by
  unfold SheetCollection.flushOne
  cases hd : c.dirty <;> simp [hd]

/-- A collection already clean is unchanged by setting dirty to false. -/
theorem set_dirty_false_eq {S : Type} {c : SheetCollection S}
    (hd : c.dirty = false) : { c with dirty := false } = c := by
  cases c
  simp_all

/-- The flusher snapshots and the post-flush collections, per origin, are
what the per-collection flush body produced for that origin. -/
theorem flush_borrow {S : Type} [DecidableEq S] (set : DocumentStylesheetSet S)
    (o : Origin) :
    (set.flush).origins_dirty.mem o =
        ((set.collections.borrow_for_origin o).flushOne).1 ∧
    (set.flush).origin_data_validity.borrow_for_origin o =
        ((set.collections.borrow_for_origin o).flushOne).2.1 ∧
    (set.flush).collections.borrow_for_origin o =
        ((set.collections.borrow_for_origin o).flushOne).2.2 := by
  cases o <;> exact ⟨rfl, rfl, rfl⟩

/-- Writing back the value just read for an origin is the identity. -/
theorem set_borrow_self {T : Type} (p : PerOrigin T) (o : Origin) :
    p.set_for_origin o (p.borrow_for_origin o) = p := by
  cases o <;> rfl

/-! Claim theorems. -/

/-- C1: the flush cursor (PerOriginFlusher next, drained to exhaustion)
visits entries in document order, flips every committed flag to true, and
yields per entry: (sheet, Full) when the entry was uncommitted, nothing
when committed under a Valid snapshot, (sheet, CascadeOnly) when committed
under CascadeInvalid, (sheet, Full) when committed under FullyInvalid. -/
theorem c1_flush_cursor {S : Type} (v : DataValidity)
    (l : List (StylesheetSetEntry S)) :
    PerOriginFlusher.drain v l =
      (l.filterMap (specFlushYield v), l.map StylesheetSetEntry.markCommitted) :=
  drain_eq_filterMap v l

/-- C7: set_data_validity_at_least is monotonic: the resulting validity is
the maximum of the requested level and the old validity, so it never drops
below either, and the dirty flag is always set. -/
theorem c7_set_validity_at_least {S : Type} (c : SheetCollection S)
    (v : DataValidity) :
    (c.set_data_validity_at_least v).dirty = true ∧
    ((c.set_data_validity_at_least v).data_validity).toNat =
      Nat.max v.toNat c.data_validity.toNat ∧
    c.data_validity.toNat ≤ ((c.set_data_validity_at_least v).data_validity).toNat ∧
    v.toNat ≤ ((c.set_data_validity_at_least v).data_validity).toNat := by
  refine ⟨rfl, ?_, ?_, ?_⟩ <;>
    cases v <;> cases hcv : c.data_validity <;>
      simp [SheetCollection.set_data_validity_at_least, DataValidity.max,
        DataValidity.toNat, hcv]

/-- C9: after the flush cursor is drained to exhaustion, every entry of
the collection has committed equal to true, including entries the cursor
never yielded. -/
theorem c9_drained_all_committed {S : Type} (v : DataValidity)
    (l : List (StylesheetSetEntry S)) (e : StylesheetSetEntry S)
    (h : e ∈ (PerOriginFlusher.drain v l).2) : e.committed = true := by
  rw [drain_eq_filterMap] at h
  simp only [List.mem_map] at h
  obtain ⟨a, _, rfl⟩ := h
  rfl

/-- C9 witness: draining a one-entry collection leaves that entry
committed. -/
theorem c9_witness :
    ({ sheet := 3, committed := true } : StylesheetSetEntry Nat) ∈
        (PerOriginFlusher.drain DataValidity.Valid
          [{ sheet := 3, committed := false }]).2 ∧
    ({ sheet := 3, committed := true } : StylesheetSetEntry Nat).committed = true :=
  ⟨by decide,
    c9_drained_all_committed DataValidity.Valid
      [{ sheet := 3, committed := false }]
      { sheet := 3, committed := true } (by decide)⟩

/-- C10: reading an index at or past the length of the collection of the
given origin yields none, and reading an index below the length yields the
sheet at that position in document order. -/
theorem c10_get_in_bounds {S : Type} [DecidableEq S]
    (set : DocumentStylesheetSet S) (o : Origin) (i : Nat) :
    ((set.collections.borrow_for_origin o).len ≤ i → set.get o i = none) ∧
    (∀ h : i < (set.collections.borrow_for_origin o).len,
      set.get o i =
        some (((set.collections.borrow_for_origin o).entries.get ⟨i, h⟩).sheet)) := by
  constructor
  · intro h
    unfold DocumentStylesheetSet.get SheetCollection.get
    rw [List.get?_eq_none.mpr h]
    rfl
  · intro h
    unfold DocumentStylesheetSet.get SheetCollection.get
    rw [List.get?_eq_get h]
    rfl

/-- Raising to FullyInvalid always lands on FullyInvalid, the top of the
validity order. -/
theorem max_FullyInvalid (x : DataValidity) :
    DataValidity.max DataValidity.FullyInvalid x = DataValidity.FullyInvalid := by
  cases x <;> rfl

/-- C2: removing a sheet present in a collection deletes exactly the first
entry equal to it; when that entry was committed the validity is raised to
FullyInvalid, when it was not the validity is left unchanged, and the
dirty flag is set either way. -/
theorem c2_remove_present {S : Type} [DecidableEq S] (gecko : Bool)
    (c : SheetCollection S) (s : S) (h : c.contains s = true) :
    ∃ l1 e l2,
      c.entries = l1 ++ e :: l2 ∧ e.sheet = s ∧ (∀ y ∈ l1, y.sheet ≠ s) ∧
      c.remove gecko s = some
        { entries := l1 ++ l2,
          data_validity :=
            if e.committed then DataValidity.FullyInvalid else c.data_validity,
          dirty := true } := by
  have h2 : c.entries.any (fun entry => decide (entry.sheet = s)) = true := h
  obtain ⟨l1, e, l2, hdec, he, hl1, hpos⟩ := position_of_any _ c.entries h2
  have hget : c.entries.get? l1.length = some e := by
    rw [hdec]; exact get?_append_cons l1 e l2
  have hget2 : c.entries[l1.length]? = some e := by
    rw [← List.get?_eq_getElem?]; exact hget
  have hrem : removeAt l1.length c.entries = l1 ++ l2 := by
    rw [hdec]; exact removeAt_append_cons l1 e l2
  refine ⟨l1, e, l2, hdec, of_decide_eq_true he,
    fun y hy => of_decide_eq_false (hl1 y hy), ?_⟩
  cases hc : e.committed <;>
    simp [SheetCollection.remove, hpos, hget, hget2, hrem, hc,
      SheetCollection.set_data_validity_at_least, max_FullyInvalid]

/-- C8: insert_before fails fast (an expect panic, modelled as none) when
the anchor is absent; when the anchor is present the new entry lands
immediately before the first entry equal to the anchor, the dirty flag is
set, and the validity is raised to at least CascadeInvalid and never
lowered. -/
theorem c8_insert_before {S : Type} [DecidableEq S] (c : SheetCollection S)
    (s anchor : S) :
    (c.contains anchor = false → c.insert_before s anchor = none) ∧
    (c.contains anchor = true →
      ∃ l1 a l2,
        c.entries = l1 ++ a :: l2 ∧ a.sheet = anchor ∧
        (∀ y ∈ l1, y.sheet ≠ anchor) ∧
        c.insert_before s anchor = some
          { entries := l1 ++ StylesheetSetEntry.new s :: a :: l2,
            data_validity := DataValidity.max DataValidity.CascadeInvalid c.data_validity,
            dirty := true } ∧
        1 ≤ (DataValidity.max DataValidity.CascadeInvalid c.data_validity).toNat ∧
        c.data_validity.toNat ≤
          (DataValidity.max DataValidity.CascadeInvalid c.data_validity).toNat) := by
  constructor
  · intro h
    have h2 : c.entries.any (fun entry => decide (entry.sheet = anchor)) = false := h
    have hpos := position_eq_none _ c.entries h2
    simp [SheetCollection.insert_before, hpos]
  · intro h
    have h2 : c.entries.any (fun entry => decide (entry.sheet = anchor)) = true := h
    obtain ⟨l1, a, l2, hdec, ha, hl1, hpos⟩ := position_of_any _ c.entries h2
    have hins : insertAt l1.length (StylesheetSetEntry.new s) c.entries =
        l1 ++ StylesheetSetEntry.new s :: a :: l2 := by
      rw [hdec]; exact insertAt_append_cons l1 _ a l2
    refine ⟨l1, a, l2, hdec, of_decide_eq_true ha,
      fun y hy => of_decide_eq_false (hl1 y hy), ?_, ?_, ?_⟩
    · simp [SheetCollection.insert_before, hpos,
        SheetCollection.set_data_validity_at_least, hins]
    · cases hv : c.data_validity <;>
        simp [DataValidity.max, DataValidity.toNat, hv]
    · cases hv : c.data_validity <;>
        simp [DataValidity.max, DataValidity.toNat, hv]

/-- The empty document-wide set over Nat sheets, used for concrete
evaluations. -/
def exEmptySet : DocumentStylesheetSet Nat :=
  { collections := { user_agent := SheetCollection.default Nat,
                     user := SheetCollection.default Nat,
                     author := SheetCollection.default Nat } }

/-- C4 counterexample: under the lenient (gecko feature) mode, removing an
absent sheet from the Author collection — a tier other than the
lowest-priority UserAgent one — is silently ignored instead of failing
fast, so the lenient mode is not scoped to the UserAgent tier. -/
theorem c4_counterexample :
    exEmptySet.remove_stylesheet true Origin.Author 42 = some exEmptySet := by
  decide

/-- C4 amended: removing an absent sheet fails fast by default (without
the gecko feature), and the lenient mode silently ignoring such a removal
is a compile-time feature flag applying uniformly to every tier, not only
the lowest-priority one. -/
theorem c4_amended {S : Type} [DecidableEq S] (set : DocumentStylesheetSet S)
    (o : Origin) (s : S)
    (h : (set.collections.borrow_for_origin o).contains s = false) :
    set.remove_stylesheet false o s = none ∧
    set.remove_stylesheet true o s = some set := by
  have h2 : (set.collections.borrow_for_origin o).entries.any
      (fun entry => decide (entry.sheet = s)) = false := h
  have hpos := position_eq_none _ _ h2
  constructor
  · simp [DocumentStylesheetSet.remove_stylesheet, SheetCollection.remove, hpos]
  · simp [DocumentStylesheetSet.remove_stylesheet, SheetCollection.remove, hpos,
      set_borrow_self]

/-- C4 witness: concrete run of the amended statement on the empty set. -/
theorem c4_witness :
    exEmptySet.remove_stylesheet false Origin.User 0 = none ∧
    exEmptySet.remove_stylesheet true Origin.User 0 = some exEmptySet :=
  c4_amended exEmptySet Origin.User 0 (by decide)

/-- C3: flush leaves a clean collection untouched (and its validity is
Valid by the invariant, as the debug assertion in the source checks),
records every dirty collection in the dirty-origin snapshot together with
its pre-reset validity and resets its dirty flag and validity, never
changes entry membership, and leaves the whole set reporting no change. -/
theorem c3_flush {S : Type} [DecidableEq S] (set : DocumentStylesheetSet S)
    (hinv : ∀ o, (set.collections.borrow_for_origin o).inv) :
    (∀ o,
      ((set.collections.borrow_for_origin o).dirty = false →
        (set.collections.borrow_for_origin o).data_validity = DataValidity.Valid ∧
        (set.flush).origins_dirty.mem o = false ∧
        (set.flush).origin_data_validity.borrow_for_origin o = DataValidity.Valid ∧
        (set.flush).collections.borrow_for_origin o =
          set.collections.borrow_for_origin o) ∧
      ((set.collections.borrow_for_origin o).dirty = true →
        (set.flush).origins_dirty.mem o = true ∧
        (set.flush).origin_data_validity.borrow_for_origin o =
          (set.collections.borrow_for_origin o).data_validity ∧
        (set.flush).collections.borrow_for_origin o =
          { entries := (set.collections.borrow_for_origin o).entries,
            data_validity := DataValidity.Valid,
            dirty := false }) ∧
      ((set.flush).collections.borrow_for_origin o).entries =
        (set.collections.borrow_for_origin o).entries) ∧
    DocumentStylesheetSet.has_changed
      { collections := (set.flush).collections } = false := by
  constructor
  · intro o
    obtain ⟨hb1, hb2, hb3⟩ := flush_borrow set o
    refine ⟨?_, ?_, ?_⟩
    · intro hd
      have hval := hinv o hd
      have h1 := (flushOne_spec (set.collections.borrow_for_origin o)).1 hd
      refine ⟨hval, ?_, ?_, ?_⟩
      · rw [hb1, h1]
      · rw [hb2, h1]
      · rw [hb3, h1]; exact set_dirty_false_eq hd
    · intro hd
      have h1 := (flushOne_spec (set.collections.borrow_for_origin o)).2.1 hd
      refine ⟨?_, ?_, ?_⟩
      · rw [hb1, h1]
      · rw [hb2, h1]
      · rw [hb3, h1]
    · rw [hb3]
      exact (flushOne_spec _).2.2.2
  · have d1 := (flushOne_spec set.collections.user_agent).2.2.1
    have d2 := (flushOne_spec set.collections.user).2.2.1
    have d3 := (flushOne_spec set.collections.author).2.2.1
    simp [DocumentStylesheetSet.has_changed, DocumentStylesheetSet.flush] at d1 d2 d3 ⊢
    exact ⟨⟨d1, d2⟩, d3⟩

/-- The cumulative effect of a sequence of appends: entries are appended
at the end in order, the validity is untouched, and the collection is
dirty as soon as one sheet was appended. -/
theorem foldl_append_acc {S : Type} [DecidableEq S] (sheets : List S) :
    ∀ c : SheetCollection S,
      (sheets.foldl SheetCollection.append c).entries =
          c.entries ++ sheets.map StylesheetSetEntry.new ∧
      (sheets.foldl SheetCollection.append c).data_validity = c.data_validity ∧
      (sheets.foldl SheetCollection.append c).dirty = (c.dirty || !sheets.isEmpty) := by
  induction sheets with
  | nil => intro c; simp
  | cons s sheets ih =>
    intro c
    obtain ⟨h1, h2, h3⟩ := ih (c.append s)
    refine ⟨?_, ?_, ?_⟩
    · rw [List.foldl_cons, h1]
      simp [SheetCollection.append]
    · rw [List.foldl_cons, h2]
      rfl
    · rw [List.foldl_cons, h3]
      simp [SheetCollection.append]

/-- Under a Valid snapshot the cursor yields nothing for fully committed
entries. -/
theorem filterMap_committed_nil {S : Type} (l : List (StylesheetSetEntry S))
    (h : ∀ e ∈ l, e.committed = true) :
    l.filterMap (specFlushYield DataValidity.Valid) = [] := by
  induction l with
  | nil => rfl
  | cons e rest ih =>
    have he := h e (by simp)
    simp [specFlushYield, he, ih (fun x hx => h x (by simp [hx]))]

/-- Fresh entries are yielded as Full under every snapshot. -/
theorem filterMap_new_entries {S : Type} (v : DataValidity) (sheets : List S) :
    (sheets.map StylesheetSetEntry.new).filterMap (specFlushYield v) =
      sheets.map (fun s => (s, SheetRebuildKind.Full)) := by
  induction sheets with
  | nil => rfl
  | cons s rest ih => simp [StylesheetSetEntry.new, specFlushYield, ih]

/-- C5: appending any nonempty batch of sheets to a fully committed, Valid
collection keeps the validity Valid and sets dirty, a subsequent flush of
the collection snapshots a Valid validity, and draining the resulting
cursor yields exactly the appended sheets, in order, each as Full — none
of the previously committed entries are yielded. -/
theorem c5_append_only {S : Type} [DecidableEq S] (c : SheetCollection S)
    (sheets : List S)
    (hval : c.data_validity = DataValidity.Valid)
    (hcom : ∀ e ∈ c.entries, e.committed = true)
    (hne : sheets ≠ []) :
    (sheets.foldl SheetCollection.append c).data_validity = DataValidity.Valid ∧
    (sheets.foldl SheetCollection.append c).dirty = true ∧
    (sheets.foldl SheetCollection.append c).flushOne =
      (true, DataValidity.Valid,
        { entries := (sheets.foldl SheetCollection.append c).entries,
          data_validity := DataValidity.Valid, dirty := false }) ∧
    (PerOriginFlusher.drain DataValidity.Valid
        (sheets.foldl SheetCollection.append c).entries).1 =
      sheets.map (fun s => (s, SheetRebuildKind.Full)) := by
  obtain ⟨h1, h2, h3⟩ := foldl_append_acc sheets c
  have hval2 : (sheets.foldl SheetCollection.append c).data_validity =
      DataValidity.Valid := by rw [h2, hval]
  have hdirty : (sheets.foldl SheetCollection.append c).dirty = true := by
    rw [h3]
    cases sheets with
    | nil => exact absurd rfl hne
    | cons a l => simp
  refine ⟨hval2, hdirty, ?_, ?_⟩
  · have hf := (flushOne_spec (sheets.foldl SheetCollection.append c)).2.1 hdirty
    rw [hf, hval2]
  · rw [drain_eq_filterMap, h1]
    simp only [List.filterMap_append]
    rw [filterMap_committed_nil c.entries hcom, filterMap_new_entries]
    simp

/-- A successful remove either returns the collection untouched (the
lenient path) or a collection marked dirty. -/
theorem remove_result {S : Type} [DecidableEq S] (g : Bool)
    (c : SheetCollection S) (s : S) (c2 : SheetCollection S)
    (hsome : c.remove g s = some c2) : c2 = c ∨ c2.dirty = true := by
  unfold SheetCollection.remove at hsome
  cases hp : position (fun entry => decide (entry.sheet = s)) c.entries with
  | none =>
    rw [hp] at hsome
    cases g with
    | false => simp at hsome
    | true =>
      simp at hsome
      exact Or.inl hsome.symm
  | some i =>
    rw [hp] at hsome
    simp only [Option.isNone_some, Bool.and_false, Bool.false_eq_true,
      if_false] at hsome
    cases hg : c.entries.get? i with
    | none => rw [hg] at hsome; simp at hsome
    | some entry =>
      rw [hg] at hsome
      simp only at hsome
      cases hce : entry.committed with
      | false =>
        rw [hce] at hsome
        simp at hsome
        right
        rw [← hsome]
      | true =>
        rw [hce] at hsome
        simp at hsome
        right
        rw [← hsome]
        simp [SheetCollection.set_data_validity_at_least]

/-- The collection force_dirty stores for an origin is the conditional
raise applied to the one that was there. -/
theorem force_dirty_borrow {S : Type} [DecidableEq S]
    (set : DocumentStylesheetSet S) (origins : OriginSet) (o : Origin) :
    (set.force_dirty origins).collections.borrow_for_origin o =
      DocumentStylesheetSet.forceOne (origins.mem o)
        (set.collections.borrow_for_origin o) := by
  cases o <;> rfl

/-- C6: the invariant that a clean collection has Valid data holds of the
default collection and is preserved by append, prepend, insert_before,
remove, set_data_validity_at_least (hence force_dirty) and flush. -/
theorem c6_invariant {S : Type} [DecidableEq S] :
    ((SheetCollection.default S).inv) ∧
    (∀ (c : SheetCollection S) (s : S), c.inv → (c.append s).inv) ∧
    (∀ (c : SheetCollection S) (s : S), c.inv → (c.prepend s).inv) ∧
    (∀ (c : SheetCollection S) (s a : S) (c2 : SheetCollection S),
      c.inv → c.insert_before s a = some c2 → c2.inv) ∧
    (∀ (g : Bool) (c : SheetCollection S) (s : S) (c2 : SheetCollection S),
      c.inv → c.remove g s = some c2 → c2.inv) ∧
    (∀ (c : SheetCollection S) (v : DataValidity),
      (c.set_data_validity_at_least v).inv) ∧
    (∀ (set : DocumentStylesheetSet S) (origins : OriginSet) (o : Origin),
      (set.collections.borrow_for_origin o).inv →
      ((set.force_dirty origins).collections.borrow_for_origin o).inv) ∧
    (∀ (set : DocumentStylesheetSet S) (o : Origin),
      (set.collections.borrow_for_origin o).inv →
      ((set.flush).collections.borrow_for_origin o).inv) := by
  refine ⟨fun _ => rfl, ?_, ?_, ?_, ?_, ?_, ?_, ?_⟩
  · intro c s _ h
    simp [SheetCollection.append] at h
  · intro c s _ h
    simp [SheetCollection.prepend, SheetCollection.set_data_validity_at_least] at h
  · intro c s a c2 _ hsome
    unfold SheetCollection.insert_before at hsome
    cases hp : position (fun entry => decide (entry.sheet = a)) c.entries with
    | none => rw [hp] at hsome; simp at hsome
    | some i =>
      rw [hp] at hsome
      simp at hsome
      intro hd
      rw [← hsome] at hd
      simp [SheetCollection.set_data_validity_at_least] at hd
  · intro g c s c2 hc hsome
    rcases remove_result g c s c2 hsome with rfl | hd
    · exact hc
    · intro hd2
      rw [hd] at hd2
      exact absurd hd2 (by simp)
  · intro c v hd
    simp [SheetCollection.set_data_validity_at_least] at hd
  · intro set origins o hc
    rw [force_dirty_borrow]
    cases hf : origins.mem o with
    | false => simpa [DocumentStylesheetSet.forceOne] using hc
    | true =>
      intro hd
      simp [DocumentStylesheetSet.forceOne,
        SheetCollection.set_data_validity_at_least] at hd
  · intro set o hc
    obtain ⟨_, _, hb3⟩ := flush_borrow set o
    rw [hb3]
    cases hd : (set.collections.borrow_for_origin o).dirty with
    | false =>
      rw [(flushOne_spec _).1 hd]
      intro _
      exact hc hd
    | true =>
      rw [(flushOne_spec _).2.1 hd]
      intro _
      rfl

/-! Concrete objects for witness evaluations. -/

/-- A collection over Nat sheets with one committed and one uncommitted
entry, Valid data and the dirty flag set. -/
def exCollection : SheetCollection Nat :=
  { entries := [{ sheet := 1, committed := true },
                { sheet := 2, committed := false }],
    data_validity := DataValidity.Valid,
    dirty := true }

/-- A collection as it stands right after a drained flush: committed
entry, Valid, clean. -/
def exFlushedCollection : SheetCollection Nat :=
  { entries := [{ sheet := 1, committed := true }],
    data_validity := DataValidity.Valid,
    dirty := false }

/-- A document set with a dirty Author collection. -/
def exSet : DocumentStylesheetSet Nat :=
  { collections := { user_agent := SheetCollection.default Nat,
                     user := SheetCollection.default Nat,
                     author := exCollection } }

/-- C2 witness: removing the committed sheet 1 from the concrete
collection. -/
theorem c2_witness :
    ∃ l1 e l2,
      exCollection.entries = l1 ++ e :: l2 ∧ e.sheet = 1 ∧
      (∀ y ∈ l1, y.sheet ≠ 1) ∧
      exCollection.remove false 1 = some
        { entries := l1 ++ l2,
          data_validity :=
            if e.committed then DataValidity.FullyInvalid
            else exCollection.data_validity,
          dirty := true } :=
  c2_remove_present false exCollection 1 (by decide)

/-- C3 witness: flushing the concrete set leaves it reporting no
change. -/
theorem c3_witness :
    DocumentStylesheetSet.has_changed
      { collections := (exSet.flush).collections } = false :=
  (c3_flush exSet (fun o => by cases o <;> decide)).2

/-- C5 witness: appending sheets 2 and 3 to the flushed collection and
flushing yields exactly those two sheets as Full. -/
theorem c5_witness :
    ([2, 3].foldl SheetCollection.append exFlushedCollection).data_validity =
        DataValidity.Valid ∧
    ([2, 3].foldl SheetCollection.append exFlushedCollection).dirty = true ∧
    ([2, 3].foldl SheetCollection.append exFlushedCollection).flushOne =
      (true, DataValidity.Valid,
        { entries := ([2, 3].foldl SheetCollection.append exFlushedCollection).entries,
          data_validity := DataValidity.Valid, dirty := false }) ∧
    (PerOriginFlusher.drain DataValidity.Valid
        ([2, 3].foldl SheetCollection.append exFlushedCollection).entries).1 =
      [2, 3].map (fun s => (s, SheetRebuildKind.Full)) :=
  c5_append_only exFlushedCollection [2, 3] rfl (by decide) (by decide)

/-- C6 witness: the invariant holds of the default collection and of the
default collection after an append. -/
theorem c6_witness :
    ((SheetCollection.default Nat).append 3).inv :=
  (c6_invariant (S := Nat)).2.1 (SheetCollection.default Nat) 3
    (c6_invariant (S := Nat)).1

/-- C8 witness: inserting sheet 5 before the present anchor 2 in the
concrete collection. -/
theorem c8_witness :
    ∃ l1 a l2,
      exCollection.entries = l1 ++ a :: l2 ∧ a.sheet = 2 ∧
      (∀ y ∈ l1, y.sheet ≠ 2) ∧
      exCollection.insert_before 5 2 = some
        { entries := l1 ++ StylesheetSetEntry.new 5 :: a :: l2,
          data_validity :=
            DataValidity.max DataValidity.CascadeInvalid exCollection.data_validity,
          dirty := true } ∧
      1 ≤ (DataValidity.max DataValidity.CascadeInvalid
            exCollection.data_validity).toNat ∧
      exCollection.data_validity.toNat ≤
        (DataValidity.max DataValidity.CascadeInvalid
          exCollection.data_validity).toNat :=
  (c8_insert_before exCollection 5 2).2 (by decide)

/-- C10 witness: an out-of-range read of the Author collection of the
concrete set gives none, and an in-range one gives the sheet there. -/
theorem c10_witness :
    exSet.get Origin.Author 5 = none ∧ exSet.get Origin.Author 0 = some 1 :=
  ⟨(c10_get_in_bounds exSet Origin.Author 5).1 (by decide),
   (c10_get_in_bounds exSet Origin.Author 0).2 (by decide)⟩
